import Mathlib

/-!
Verification development for the stream-fitter chat relay.

Shallow embedding of the routing fabric (`src/stream-fitter/src/pipe_fitter.rs`),
the message type (`src/stream-fitter/src/clients/client.rs`), and the Discord and
Twitch adapters (`src/stream-fitter/src/clients/discord.rs`,
`src/stream-fitter/src/clients/twitch.rs`).

Modelling conventions:
* A `tokio::sync::mpsc::Sender<Message>` is identified by the unique id of the
  client that owns the receiving end of its queue (each client allocates exactly
  one inbound queue at construction, and every clone of its `tx` refers to it).
* Async side effects (posting to a platform channel, sending on a peer's queue)
  are recorded as explicit action lists, in the order the code performs them.
* The bounded-queue / scheduling aspects not needed by any claim (capacity 100,
  task interleaving) are not modelled.
-/

namespace StreamFitter

/-- `Message` from `clients/client.rs`: the intercommunication value object. -/
structure Message where
  client : String
  channel : String
  author : String
  content : String
deriving DecidableEq, Repr

/-- `Message::new` from `clients/client.rs`. -/
def Message.new (client channel author content : String) : Message :=
  { client := client, channel := channel, author := author, content := content }

/-- The `Display` implementation for `Message` in `clients/client.rs`:
`write!(f, "[{}: {}] [{}] {}", self.client, self.channel, self.author, self.content)`. -/
def Message.render (m : Message) : String :=
  "[" ++ m.client ++ ": " ++ m.channel ++ "] [" ++ m.author ++ "] " ++ m.content

/-- `FitterErrorKind` from `errors.rs`: the only error kinds defined by the crate. -/
inductive FitterErrorKind where
  | InternalErr : String → FitterErrorKind
  | GenericErr : String → FitterErrorKind
deriving DecidableEq, Repr

/-- The `#[fail(display = ...)]` strings of `FitterErrorKind` in `errors.rs`. -/
def FitterErrorKind.display : FitterErrorKind → String
  | .InternalErr s => "Internal error: " ++ s
  | .GenericErr s => "Generic error: " ++ s

/-- A `Sender<Message>` handle, identified by the id of the client whose inbound
queue it feeds (see the modelling conventions above). -/
structure Sender where
  owner : String
deriving DecidableEq, Repr

/-! ## Discord adapter (`clients/discord.rs`) -/

/-- The mutable state of `DiscordHandler` (`discord.rs`): configured channel ids,
the registered peer senders `outer_tx`, and the two policy flags.  The handler's
own `tx`/`rx` pair is represented by the owning client's id (see conventions). -/
structure DiscordHandlerS where
  ch_ids : List Nat
  outer_tx : List Sender
  isolate_channels : Bool
  forward_only : Bool
deriving DecidableEq, Repr

/-- The fields of a serenity `Message` event that `DiscordHandler::message` reads:
the author's bot flag and name, the channel id, the resolved channel name, and
the text content. -/
structure DiscordEvent where
  author_bot : Bool
  author_name : String
  channel_id : Nat
  channel_name : String
  content : String
deriving DecidableEq, Repr

/-- Side effects of the Discord ingress duty: `ch_id.say(http, text)` posts, and
`stream.send(msg)` forwards to a peer's queue. -/
inductive DAction where
  | say : Nat → String → DAction
  | forward : Sender → Message → DAction
deriving DecidableEq, Repr

/-- `DiscordHandler::message` (`discord.rs` lines 69-110), as the list of side
effects performed for one platform event: drop bot-authored events, drop events
from unconfigured channels, otherwise build the `Message`, rebroadcast to the
other own channels unless `isolate_channels`, then forward to every `outer_tx`
entry.  `say` posts the `Display` rendering of the message (serenity's `say`
takes `impl Display`). -/
def discordMessage (h : DiscordHandlerS) (e : DiscordEvent) : List DAction :=
  if e.author_bot then []
  else if ((h.ch_ids.find? fun ch => ch = e.channel_id).isNone) then []
  else
    let new_msg := Message.new "Discord" e.channel_name e.author_name e.content
    (if !h.isolate_channels then
      (h.ch_ids.filter fun ch => ch ≠ e.channel_id).map
        fun ch => DAction.say ch new_msg.render
    else []) ++
    h.outer_tx.map fun stream => DAction.forward stream new_msg

/-- The ingress duty over a stream of platform events: `DiscordHandler::message`
is invoked per event, each invocation's failures being logged, never propagated,
so the duty always proceeds to the next event. -/
def discordIngress (h : DiscordHandlerS) : List DiscordEvent → List DAction
  | [] => []
  | e :: es => discordMessage h e ++ discordIngress h es

/-- `DiscordHandler::ready` (`discord.rs` lines 112-133), restricted to its
observable posting behaviour on the messages dequeued from `rx`: when
`forward_only` is false, every dequeued message is posted (rendered) to every
configured channel; when `forward_only` is true the whole dequeue loop is
skipped. -/
def discordReady (h : DiscordHandlerS) (queued : List Message) : List DAction :=
  if !h.forward_only then
    queued.flatMap fun msg => h.ch_ids.map fun ch => DAction.say ch msg.render
  else []

/-- `DiscordConfig` from `discord.rs`. -/
structure DiscordConfigE where
  token : String
  channel_ids : List Nat
  isolate_channels : Option Bool
  forward_only : Option Bool
deriving DecidableEq, Repr

/-- The `Discord` client struct from `discord.rs`: id, token, and an optional
handler (`None` only after `run()` takes it). -/
structure DiscordClient where
  id : String
  token : String
  handler : Option DiscordHandlerS
deriving DecidableEq, Repr

/-- `Discord::from_config` (`discord.rs`): always succeeds, allocates the
handler (and with it the inbound queue), defaulting both policy flags to
`false`. -/
def discordFromConfig (id : String) (cfg : DiscordConfigE) : DiscordClient :=
  { id := id
    token := cfg.token
    handler := some
      { ch_ids := cfg.channel_ids
        outer_tx := []
        isolate_channels := cfg.isolate_channels.getD false
        forward_only := cfg.forward_only.getD false } }

/-- `Discord::get_stream` (`discord.rs` lines 195-200): returns a clone of the
handler's `tx` when the handler is present, otherwise
`Err(FitterErrorKind::GenericErr("No handler"))`. -/
def DiscordClient.get_stream (d : DiscordClient) : Except FitterErrorKind Sender :=
  match d.handler with
  | some _ => .ok ⟨d.id⟩
  | none => .error (.GenericErr "No handler")

/-- `Discord::add_stream` (`discord.rs` lines 202-210): pushes onto the
handler's `outer_tx`, or fails with `InternalErr("No handler")`. -/
def DiscordClient.add_stream (d : DiscordClient) (s : Sender) :
    Except FitterErrorKind DiscordClient :=
  match d.handler with
  | some h => .ok { d with handler := some { h with outer_tx := h.outer_tx ++ [s] } }
  | none => .error (.InternalErr "No handler")

/-! ## Twitch adapter (`clients/twitch.rs`) -/

/-- The fields of a `ServerMessage::Privmsg` that `external_message_loop` reads. -/
structure TwitchEvent where
  sender_login : String
  sender_name : String
  channel_login : String
  message_text : String
deriving DecidableEq, Repr

/-- Side effects of the Twitch loops: `client.privmsg(channel, text)` posts, and
`stream.send(msg)` forwards to a peer's queue. -/
inductive TAction where
  | privmsg : String → String → TAction
  | forward : Sender → Message → TAction
deriving DecidableEq, Repr

/-- The body of `external_message_loop` (`twitch.rs` lines 42-88) for one
`Privmsg`: drop events from the client's own login, drop events from
unconfigured channels, otherwise build the `Message`, rebroadcast its rendering
to the other own channels unless `isolate_channels`, then forward to every
`outer_tx` entry. -/
def twitchExternalOne (client_name : String) (channels : List String)
    (outer_tx : List Sender) (isolate_channels : Bool) (e : TwitchEvent) :
    List TAction :=
  if e.sender_login = client_name then []
  else if ((channels.find? fun c => c = e.channel_login).isNone) then []
  else
    let new_msg := Message.new "Twitch" e.channel_login e.sender_name e.message_text
    (if !isolate_channels then
      (channels.filter fun c => c ≠ e.channel_login).map
        fun c => TAction.privmsg c new_msg.render
    else []) ++
    outer_tx.map fun stream => TAction.forward stream new_msg

/-- `external_message_loop` over a stream of `Privmsg` events: each event is
handled in turn; send failures inside one event's fan-out are logged, never
propagated, so the loop always proceeds to the next event. -/
def twitchIngress (client_name : String) (channels : List String)
    (outer_tx : List Sender) (isolate_channels : Bool) :
    List TwitchEvent → List TAction
  | [] => []
  | e :: es =>
    twitchExternalOne client_name channels outer_tx isolate_channels e ++
    twitchIngress client_name channels outer_tx isolate_channels es

/-- `internal_message_loop` (`twitch.rs` lines 99-118): every message dequeued
from `rx` is posted as `msg.to_string()` (its `Display` rendering) to every
configured channel. -/
def twitchInternalLoop (channels : List String) (queued : List Message) :
    List TAction :=
  queued.flatMap fun msg => channels.map fun c => TAction.privmsg c msg.render

/-- The egress half of `Twitch::run` (`twitch.rs` lines 237-243): the
`internal_message_loop` task is spawned only when `forward_only` is false;
otherwise no dequeue-and-post loop exists at all. -/
def twitchRunEgress (forward_only : Bool) (channels : List String)
    (queued : List Message) : List TAction :=
  if !forward_only then twitchInternalLoop channels queued else []

/-- `TwitchConfig` from `twitch.rs`. -/
structure TwitchConfigE where
  token : String
  name : String
  channels : List String
  isolate_channels : Option Bool
  forward_only : Option Bool
deriving DecidableEq, Repr

/-- The `Twitch` client struct from `twitch.rs`: its inbound queue (`tx`/`rx`)
is allocated directly in `from_config`, so it is always present. -/
structure TwitchClient where
  id : String
  channels : List String
  outer_tx : List Sender
  isolate_channels : Bool
  forward_only : Bool
deriving DecidableEq, Repr

/-- `Twitch::from_config` (`twitch.rs`): always succeeds, allocates the inbound
queue, defaulting both policy flags to `false`. -/
def twitchFromConfig (id : String) (cfg : TwitchConfigE) : TwitchClient :=
  { id := id
    channels := cfg.channels
    outer_tx := []
    isolate_channels := cfg.isolate_channels.getD false
    forward_only := cfg.forward_only.getD false }

/-- `Twitch::get_stream` (`twitch.rs` lines 191-193): always `Ok(tx.clone())`. -/
def TwitchClient.get_stream (t : TwitchClient) : Except FitterErrorKind Sender :=
  .ok ⟨t.id⟩

/-- `Twitch::add_stream` (`twitch.rs` lines 195-198): always succeeds. -/
def TwitchClient.add_stream (t : TwitchClient) (s : Sender) :
    Except FitterErrorKind TwitchClient :=
  .ok { t with outer_tx := t.outer_tx ++ [s] }

/-! ## The boxed `Client` trait object and `ClientConfig` (`clients/client.rs`) -/

/-- The `Client` trait object: the closed set of adapters behind `ClientTrait`. -/
inductive Client where
  | discord : DiscordClient → Client
  | twitch : TwitchClient → Client
deriving DecidableEq, Repr

/-- `ClientTrait::get_name`. -/
def Client.get_name : Client → String
  | .discord _ => "Discord"
  | .twitch _ => "Twitch"

/-- `ClientTrait::get_id`. -/
def Client.get_id : Client → String
  | .discord d => d.id
  | .twitch t => t.id

/-- `ClientTrait::get_stream`, dispatched over the adapter kind. -/
def Client.get_stream : Client → Except FitterErrorKind Sender
  | .discord d => d.get_stream
  | .twitch t => t.get_stream

/-- `ClientTrait::add_stream`, dispatched over the adapter kind. -/
def Client.add_stream (c : Client) (s : Sender) : Except FitterErrorKind Client :=
  match c with
  | .discord d => (d.add_stream s).map Client.discord
  | .twitch t => (t.add_stream s).map Client.twitch

/-- The registered outbound target list of a client (the adapter's `outer_tx`).
A Discord client whose handler has been taken has none. -/
def Client.outbound : Client → List Sender
  | .discord d => match d.handler with
    | some h => h.outer_tx
    | none => []
  | .twitch t => t.outer_tx

/-- Whether the adapter currently holds its inbound queue (Discord: the handler
is present; Twitch: always). -/
def Client.hasQueue : Client → Bool
  | .discord d => d.handler.isSome
  | .twitch _ => true

/-- `ClientConfig` from `clients/client.rs`: the tagged union of adapter configs. -/
inductive ClientConfigE where
  | discordCfg : DiscordConfigE → ClientConfigE
  | twitchCfg : TwitchConfigE → ClientConfigE
deriving DecidableEq, Repr

/-- `ClientConfig::from_config` (`clients/client.rs`): dispatches to the
adapter constructor.  Both adapter constructors are infallible in the source
(they return `Ok(...)` unconditionally), so the model is total. -/
def clientFromConfig (id : String) : ClientConfigE → Client
  | .discordCfg cfg => .discord (discordFromConfig id cfg)
  | .twitchCfg cfg => .twitch (twitchFromConfig id cfg)

/-! ## The routing fabric (`pipe_fitter.rs`) -/

/-- `.get_stream().unwrap()` as used at wiring time in `PipeFitter::from_config`
(line 63): at that point every client still holds its queue, so the unwrap never
panics; the error branch (an unreachable panic) is modelled by a dummy sender. -/
def Client.getStreamUnwrap (c : Client) : Sender :=
  match c.get_stream with
  | .ok s => s
  | .error _ => ⟨""⟩

/-- `client.add_stream(stream)` followed by `.unwrap()` as used at wiring time in
`PipeFitter::from_config` (lines 74-78): the error branch (an unreachable panic,
since every freshly built client has its handler) leaves the client unchanged. -/
def Client.addStreamUnwrap (c : Client) (s : Sender) : Client :=
  match c.add_stream s with
  | .ok c2 => c2
  | .error _ => c

/-- The `HashMap::get` lookup of `PipeFitter::from_config` modelled on the
association list of `(id, streams)` pairs; under unique ids this agrees with the
`HashMap` built by `collect`. -/
def mapLookup {α : Type} : List (String × α) → String → Option α
  | [], _ => none
  | (k, v) :: rest, key => if k = key then some v else mapLookup rest key

/-- `PipeFitter::from_config` (`pipe_fitter.rs` lines 35-87) given the ids the
`nanoid!()` calls produce (one per config entry, collision resistant): build one
client per config, collect for each client the streams of every *other* client
(filtered by id inequality), then register each collected stream on its client
with `add_stream`. -/
def pipeFromConfig (ids : List String) (cfgs : List ClientConfigE) : List Client :=
  let clients := (ids.zip cfgs).map fun p => clientFromConfig p.1 p.2
  let client_map : List (String × List Sender) :=
    clients.map fun c =>
      (c.get_id,
        (clients.filter fun other => other.get_id ≠ c.get_id).map
          Client.getStreamUnwrap)
  clients.map fun c =>
    match mapLookup client_map c.get_id with
    | some streams => streams.foldl Client.addStreamUnwrap c
    | none => c

/-- The state of the scheduling loop in `PipeFitter::run` (`pipe_fitter.rs`
lines 91-116): the iterator's remaining clients and the clients already handed
to `tokio::spawn`. -/
structure RunState where
  pending : List Client
  spawned : List Client
deriving DecidableEq, Repr

/-- Outcome of one iteration of the `loop` in `PipeFitter::run`: either the loop
exits, or it continues with a new state. -/
inductive LoopOutcome where
  | halts : LoopOutcome
  | continues : RunState → LoopOutcome
deriving DecidableEq, Repr

/-- One iteration of the `loop` in `PipeFitter::run` (lines 100-113):
`Some(client)` spawns a task for it and continues; `None` hits `continue` —
there is no arm that exits the loop. -/
def pipeRunStep (s : RunState) : LoopOutcome :=
  match s.pending with
  | client :: rest => .continues { pending := rest, spawned := s.spawned ++ [client] }
  | [] => .continues s

/-- `n` iterations of the scheduling loop (always well defined, since no
iteration halts). -/
def runIter : Nat → RunState → RunState
  | 0, s => s
  | n + 1, s =>
    match pipeRunStep s with
    | .halts => s
    | .continues s2 => runIter n s2

/-- The fan-out loop over `outer_tx` shared by `DiscordHandler::message`
(`discord.rs` lines 104-109) and `external_message_loop` (`twitch.rs` lines
81-86), with the outcome of each `stream.send(...)` given by an oracle: an `Err`
result is logged (`error!`) and the loop moves on to the next target — there is
no early return.  Records, in order, each target attempted and whether its send
succeeded. -/
def forwardAll (send : Sender → Message → Except String Unit) :
    List Sender → Message → List (Sender × Bool)
  | [], _ => []
  | s :: rest, m =>
    match send s m with
    | .ok _ => (s, true) :: forwardAll send rest m
    | .error _ => (s, false) :: forwardAll send rest m

/-! ## Helper lemmas -/

/-- No iteration of the scheduling loop exits: both match arms continue. -/
lemma pipeRunStep_ne_halts (s : RunState) : pipeRunStep s ≠ .halts := by
  cases h : s.pending <;> simp [pipeRunStep, h]

/-- Once the iterator is exhausted, each iteration leaves the state unchanged. -/
lemma runIter_idle (k : Nat) (sp : List Client) :
    runIter k { pending := [], spawned := sp } = { pending := [], spawned := sp } := by
  induction k with
  | zero => rfl
  | succ n ih => simpa [runIter, pipeRunStep] using ih

/-- Draining the iterator takes `pending.length` iterations and appends every
client, in order, to the spawned list; further iterations change nothing. -/
lemma runIter_drain (cs : List Client) :
    ∀ (sp : List Client) (k : Nat),
      runIter (cs.length + k) { pending := cs, spawned := sp } =
        { pending := [], spawned := sp ++ cs } := by
  induction cs with
  | nil => intro sp k; simpa using runIter_idle k sp
  | cons c rest ih =>
    intro sp k
    have hstep : runIter (rest.length + k + 1) { pending := c :: rest, spawned := sp } =
        runIter (rest.length + k) { pending := rest, spawned := sp ++ [c] } := by
      simp [runIter, pipeRunStep]
    calc runIter ((c :: rest).length + k) { pending := c :: rest, spawned := sp }
        = runIter (rest.length + k + 1) { pending := c :: rest, spawned := sp } := by
          congr 1; simp; omega
      _ = runIter (rest.length + k) { pending := rest, spawned := sp ++ [c] } := hstep
      _ = { pending := [], spawned := (sp ++ [c]) ++ rest } := ih (sp ++ [c]) k
      _ = { pending := [], spawned := sp ++ c :: rest } := by simp

/-- Both adapter constructors install the given id. -/
theorem clientFromConfig_get_id (i : String) (cfg : ClientConfigE) :
    (clientFromConfig i cfg).get_id = i := by
  cases cfg <;> rfl

/-- Both adapter constructors allocate the inbound queue. -/
theorem clientFromConfig_hasQueue (i : String) (cfg : ClientConfigE) :
    (clientFromConfig i cfg).hasQueue = true := by
  cases cfg <;> rfl

/-- Both adapter constructors start with an empty outbound target list. -/
theorem clientFromConfig_outbound (i : String) (cfg : ClientConfigE) :
    (clientFromConfig i cfg).outbound = [] := by
  cases cfg <;> rfl

/-- While the adapter holds its queue, the unwrapped `get_stream` is the handle
to this client's own inbound queue. -/
theorem getStreamUnwrap_of_hasQueue (c : Client) (h : c.hasQueue = true) :
    c.getStreamUnwrap = ⟨c.get_id⟩ := by
  cases c with
  | discord d =>
    cases hd : d.handler with
    | none => simp [Client.hasQueue, hd] at h
    | some hh =>
      simp [Client.getStreamUnwrap, Client.get_stream, DiscordClient.get_stream,
        hd, Client.get_id]
  | twitch t => rfl

/-- While the adapter holds its queue, registering a stream appends it to the
outbound list and preserves the id and the queue. -/
theorem addStreamUnwrap_spec (c : Client) (s : Sender) (h : c.hasQueue = true) :
    (c.addStreamUnwrap s).outbound = c.outbound ++ [s] ∧
    (c.addStreamUnwrap s).get_id = c.get_id ∧
    (c.addStreamUnwrap s).hasQueue = true := by
  cases c with
  | discord d =>
    cases hd : d.handler with
    | none => simp [Client.hasQueue, hd] at h
    | some hh =>
      simp [Client.addStreamUnwrap, Client.add_stream, DiscordClient.add_stream,
        hd, Except.map, Client.outbound, Client.get_id, Client.hasQueue]
  | twitch t =>
    simp [Client.addStreamUnwrap, Client.add_stream, TwitchClient.add_stream,
      Except.map, Client.outbound, Client.get_id, Client.hasQueue]

/-- Folding `add_stream` over a stream list appends it to the outbound list. -/
theorem foldl_addStream (ss : List Sender) :
    ∀ (c : Client), c.hasQueue = true →
      (ss.foldl Client.addStreamUnwrap c).outbound = c.outbound ++ ss ∧
      (ss.foldl Client.addStreamUnwrap c).get_id = c.get_id := by
  induction ss with
  | nil => intro c _; simp
  | cons s rest ih =>
    intro c h
    obtain ⟨h1, h2, h3⟩ := addStreamUnwrap_spec c s h
    obtain ⟨ih1, ih2⟩ := ih (c.addStreamUnwrap s) h3
    refine ⟨?_, ?_⟩
    · simp [List.foldl, ih1, h1]
    · simp [List.foldl, ih2, h2]

/-- The clients built from zipped ids and configs carry exactly those ids. -/
theorem zip_map_get_id :
    ∀ (ids : List String) (cfgs : List ClientConfigE), ids.length = cfgs.length →
      ((ids.zip cfgs).map fun p => clientFromConfig p.1 p.2).map Client.get_id = ids := by
  intro ids
  induction ids with
  | nil => intro cfgs _; simp
  | cons i rest ih =>
    intro cfgs h
    cases cfgs with
    | nil => simp at h
    | cons cfg crest =>
      simp only [List.zip_cons_cons, List.map_cons, clientFromConfig_get_id]
      rw [ih crest (by simpa using h)]

/-- Association-list lookup on the wiring map: under unique ids, looking up a
member client's id yields exactly its mapped value. -/
theorem mapLookup_map {α : Type} (f : Client → α) :
    ∀ (l : List Client), (l.map Client.get_id).Nodup →
      ∀ c ∈ l, mapLookup (l.map fun d => (d.get_id, f d)) c.get_id = some (f c) := by
  intro l
  induction l with
  | nil => intro _ c hc; simp at hc
  | cons hd tl ih =>
    intro hnd c hc
    rw [List.map_cons, List.nodup_cons] at hnd
    rcases List.mem_cons.mp hc with rfl | hc2
    · simp [mapLookup]
    · have hne : hd.get_id ≠ c.get_id := by
        intro heq
        exact hnd.1 (heq ▸ List.mem_map_of_mem Client.get_id hc2)
      simp only [List.map_cons, mapLookup, hne, if_false]
      exact ih hnd.2 c hc2

/-- The stream list collected for a key is the senders of the other ids, in
order. -/
theorem filter_map_streams :
    ∀ (l : List Client), (∀ o ∈ l, o.hasQueue = true) → ∀ key : String,
      ((l.filter fun o => o.get_id ≠ key).map Client.getStreamUnwrap) =
        ((l.map Client.get_id).filter fun i => i ≠ key).map Sender.mk := by
  intro l
  induction l with
  | nil => intro _ _; rfl
  | cons hd tl ih =>
    intro hq key
    have hhd := getStreamUnwrap_of_hasQueue hd (hq hd (by simp))
    have htl := ih (fun o ho => hq o (by simp [ho])) key
    rw [List.map_cons]
    by_cases hk : hd.get_id = key
    · rw [List.filter_cons_of_neg (by simp [hk]),
        List.filter_cons_of_neg (by simp [hk]), htl]
    · rw [List.filter_cons_of_pos (by simp [hk]),
        List.filter_cons_of_pos (by simp [hk]), List.map_cons, List.map_cons,
        hhd, htl]

/-- Removing one member from a duplicate-free list of ids shortens it by one. -/
theorem filter_ne_length :
    ∀ (l : List String) (a : String), l.Nodup → a ∈ l →
      (l.filter fun i => i ≠ a).length = l.length - 1 := by
  intro l
  induction l with
  | nil => intro a _ ha; simp at ha
  | cons b tl ih =>
    intro a hnd ha
    obtain ⟨hb, htl⟩ := List.nodup_cons.mp hnd
    rcases List.mem_cons.mp ha with rfl | ha2
    · have hkeep : tl.filter (fun i => i ≠ a) = tl := by
        refine List.filter_eq_self.mpr ?_
        intro x hx
        simp only [ne_eq, decide_eq_true_eq]
        intro hxa
        exact hb (hxa ▸ hx)
      rw [List.filter_cons_of_neg (by simp), hkeep]
      simp
    · have hne : b ≠ a := fun heq => hb (heq ▸ ha2)
      have hrec := ih a htl ha2
      have hpos : 0 < tl.length := List.length_pos_of_mem ha2
      rw [List.filter_cons_of_pos (by simp [hne]), List.length_cons,
        List.length_cons, hrec]
      omega

/-- Sender handles with distinct owners are distinct. -/
theorem sender_mk_inj : Function.Injective Sender.mk :=
  fun _ _ h => congrArg Sender.owner h

/-- Characterization of the wiring pass of `PipeFitter::from_config`: every
wired client keeps an id drawn from the generated ids, and its outbound list is
exactly the senders of all the *other* ids, in fabric order. -/
theorem pipeFromConfig_mem (ids : List String) (cfgs : List ClientConfigE)
    (hlen : ids.length = cfgs.length) (hnd : ids.Nodup) :
    ∀ c ∈ pipeFromConfig ids cfgs,
      c.get_id ∈ ids ∧
      c.outbound = (ids.filter fun i => i ≠ c.get_id).map Sender.mk := by
  intro c hc
  simp only [pipeFromConfig] at hc
  set clients := (ids.zip cfgs).map (fun p => clientFromConfig p.1 p.2) with hcl
  have hids : clients.map Client.get_id = ids := zip_map_get_id ids cfgs hlen
  have hndc : (clients.map Client.get_id).Nodup := by rw [hids]; exact hnd
  have hfreshQ : ∀ o ∈ clients, o.hasQueue = true := by
    intro o ho
    obtain ⟨p, _, rfl⟩ := List.mem_map.mp ho
    exact clientFromConfig_hasQueue p.1 p.2
  obtain ⟨c0, hc0, rfl⟩ := List.mem_map.mp hc
  have hlook := mapLookup_map
    (fun cc => (clients.filter fun o => o.get_id ≠ cc.get_id).map Client.getStreamUnwrap)
    clients hndc c0 hc0
  rw [hlook]
  have hfold := foldl_addStream
    ((clients.filter fun o => o.get_id ≠ c0.get_id).map Client.getStreamUnwrap)
    c0 (hfreshQ c0 hc0)
  have hfresh0 : c0.outbound = [] := by
    obtain ⟨p, _, rfl⟩ := List.mem_map.mp hc0
    exact clientFromConfig_outbound p.1 p.2
  constructor
  · rw [hfold.2, ← hids]
    exact List.mem_map_of_mem Client.get_id hc0
  · rw [hfold.1, hfold.2, hfresh0, List.nil_append,
      filter_map_streams clients hfreshQ c0.get_id, hids]

end StreamFitter

namespace StreamFitter

/-! ## Claims -/

/-- Claim C2: `PipeFitter::run` never returns — the scheduling loop spawns one
task per client pulled from the iterator, and on iterator exhaustion the `None`
arm hits `continue`, so after `length + k` iterations (any `k`) every client has
been spawned in order, the state no longer changes, and no iteration ever exits
the loop; this holds for every fabric, the empty one included. -/
theorem pipeRun_never_returns (cs : List Client) (k : Nat) :
    pipeRunStep (runIter k { pending := cs, spawned := [] }) ≠ .halts ∧
    runIter (cs.length + k) { pending := cs, spawned := [] } =
      { pending := [], spawned := cs } := by
  refine ⟨pipeRunStep_ne_halts _, ?_⟩
  simpa using runIter_drain cs [] k

/-- Claim C1: in a fabric built by `PipeFitter::from_config` from N endpoint
configs (with the collision-resistant `nanoid!()` ids, hence pairwise distinct),
after the wiring pass every endpoint's outbound target list has length exactly
N−1, never contains the endpoint's own inbound send-handle, and contains the
inbound send-handle of each other endpoint exactly once. -/
theorem full_mesh_invariant (ids : List String) (cfgs : List ClientConfigE)
    (hlen : ids.length = cfgs.length) (hnd : ids.Nodup)
    (c : Client) (hc : c ∈ pipeFromConfig ids cfgs)
    (d : Client) (hd : d ∈ pipeFromConfig ids cfgs)
    (hne : d.get_id ≠ c.get_id) :
    c.outbound.length = cfgs.length - 1 ∧
    Sender.mk c.get_id ∉ c.outbound ∧
    c.outbound.count (Sender.mk d.get_id) = 1 := by
  obtain ⟨hcid, hco⟩ := pipeFromConfig_mem ids cfgs hlen hnd c hc
  obtain ⟨hdid, _⟩ := pipeFromConfig_mem ids cfgs hlen hnd d hd
  refine ⟨?_, ?_, ?_⟩
  · rw [hco, List.length_map, filter_ne_length ids c.get_id hnd hcid, hlen]
  · rw [hco]
    intro hmem
    obtain ⟨i, hi, heq⟩ := List.mem_map.mp hmem
    have hieq : i = c.get_id := congrArg Sender.owner heq
    subst hieq
    have hpred := (List.mem_filter.mp hi).2
    simp at hpred
  · rw [hco]
    have hnodup : ((ids.filter fun i => i ≠ c.get_id).map Sender.mk).Nodup :=
      (hnd.filter _).map sender_mk_inj
    have hmem : Sender.mk d.get_id ∈ (ids.filter fun i => i ≠ c.get_id).map Sender.mk :=
      List.mem_map_of_mem Sender.mk (List.mem_filter.mpr ⟨hdid, by simp [hne]⟩)
    exact List.count_eq_one_of_mem hnodup hmem

/-- Witness for C1 on a concrete two-endpoint fabric (one Discord, one Twitch):
the wired Discord endpoint holds exactly the Twitch endpoint's handle, and not
its own. -/
theorem full_mesh_invariant_witness :
    let ids : List String := ["a", "b"]
    let cfgs : List ClientConfigE :=
      [.discordCfg ⟨"tokD", [1, 2], none, none⟩,
        .twitchCfg ⟨"tokT", "mybot", ["general"], none, none⟩]
    let c : Client := .discord ⟨"a", "tokD", some ⟨[1, 2], [⟨"b"⟩], false, false⟩⟩
    let d : Client := .twitch ⟨"b", ["general"], [⟨"a"⟩], false, false⟩
    ids.length = cfgs.length ∧ ids.Nodup ∧
      c ∈ pipeFromConfig ids cfgs ∧ d ∈ pipeFromConfig ids cfgs ∧
      d.get_id ≠ c.get_id ∧
      (c.outbound.length = cfgs.length - 1 ∧
        Sender.mk c.get_id ∉ c.outbound ∧
        c.outbound.count (Sender.mk d.get_id) = 1) :=
  ⟨rfl, by decide, by decide, by decide, by decide,
    full_mesh_invariant ["a", "b"]
      [.discordCfg ⟨"tokD", [1, 2], none, none⟩,
        .twitchCfg ⟨"tokT", "mybot", ["general"], none, none⟩]
      rfl (by decide)
      (.discord ⟨"a", "tokD", some ⟨[1, 2], [⟨"b"⟩], false, false⟩⟩) (by decide)
      (.twitch ⟨"b", ["general"], [⟨"a"⟩], false, false⟩) (by decide)
      (by decide)⟩

/-- Claim C9: the textual rendering of a `Message` is
`"[source: channel] [author] content"`, and this same rendering is the text
posted to platform channels by the egress loops (Twitch's
`internal_message_loop` posts `msg.to_string()`, Discord's `ready` loop posts
the message via its `Display` impl). -/
theorem message_render_format (s c a t : String) (chs : List String) (m : Message)
    (ch_ids : List Nat) (otx : List Sender) (iso : Bool) :
    (Message.new s c a t).render = "[" ++ s ++ ": " ++ c ++ "] [" ++ a ++ "] " ++ t ∧
    twitchInternalLoop chs [m] = chs.map (fun ch => TAction.privmsg ch m.render) ∧
    discordReady ⟨ch_ids, otx, iso, false⟩ [m] =
      ch_ids.map (fun ch => DAction.say ch m.render) := by
  refine ⟨rfl, ?_, ?_⟩
  · simp [twitchInternalLoop]
  · simp [discordReady]

/-- Claim C7: in the ingress fan-out loop, a failed send to one outbound target
is logged and does not prevent the sends to the remaining targets — for any
outcome oracle, the attempted-target sequence is exactly the full target list —
and the ingress duty goes on to process subsequent platform events regardless of
what the current event produced. -/
theorem fanout_partial_failure (send : Sender → Message → Except String Unit)
    (targets : List Sender) (m : Message) (h : DiscordHandlerS)
    (e : DiscordEvent) (es : List DiscordEvent) (cn : String) (chs : List String)
    (otx : List Sender) (iso : Bool) (te : TwitchEvent) (tes : List TwitchEvent) :
    (forwardAll send targets m).map Prod.fst = targets ∧
    discordIngress h (e :: es) = discordMessage h e ++ discordIngress h es ∧
    twitchIngress cn chs otx iso (te :: tes) =
      twitchExternalOne cn chs otx iso te ++ twitchIngress cn chs otx iso tes := by
  refine ⟨?_, rfl, rfl⟩
  induction targets with
  | nil => rfl
  | cons s rest ih =>
    cases hs : send s m <;> simp [forwardAll, hs, ih]

/-- Claim C3: an ingress event authored by the endpoint's own bot identity is
dropped — no `Message` is built, nothing is rebroadcast, nothing is forwarded.
Twitch compares the sender login against the client's own login; on Discord the
endpoint's own identity is a bot account, so its own events carry
`author.bot = true` and fall to the bot guard. -/
theorem own_identity_dropped (cn : String) (chs : List String) (otx : List Sender)
    (iso : Bool) (te : TwitchEvent) (hown : te.sender_login = cn)
    (h : DiscordHandlerS) (e : DiscordEvent) (hbot : e.author_bot = true) :
    twitchExternalOne cn chs otx iso te = [] ∧ discordMessage h e = [] := by
  constructor
  · simp [twitchExternalOne, hown]
  · simp [discordMessage, hbot]

/-- Witness for C3 at a concrete own-identity event on each platform. -/
theorem own_identity_dropped_witness :
    let te : TwitchEvent := ⟨"mybot", "MyBot", "general", "hi"⟩
    let e : DiscordEvent := ⟨true, "MyBot", 1, "general", "hi"⟩
    let h : DiscordHandlerS := ⟨[1], [⟨"b"⟩], false, false⟩
    te.sender_login = "mybot" ∧ e.author_bot = true ∧
      (twitchExternalOne "mybot" ["general"] [⟨"b"⟩] false te = [] ∧
        discordMessage h e = []) :=
  ⟨rfl, rfl, own_identity_dropped "mybot" ["general"] [⟨"b"⟩] false
    ⟨"mybot", "MyBot", "general", "hi"⟩ rfl ⟨[1], [⟨"b"⟩], false, false⟩
    ⟨true, "MyBot", 1, "general", "hi"⟩ rfl⟩

/-- Claim C5: with `forward_only` set, the egress duty is skipped entirely —
Discord's `ready` never enters its dequeue loop and `Twitch::run` never spawns
`internal_message_loop` — so no message from the inbound queue is ever posted to
the endpoint's own platform channels. -/
theorem forward_only_skips_egress (h : DiscordHandlerS) (q : List Message)
    (hfo : h.forward_only = true) (chs : List String) (q2 : List Message) :
    discordReady h q = [] ∧ twitchRunEgress true chs q2 = [] := by
  constructor
  · simp [discordReady, hfo]
  · simp [twitchRunEgress]

/-- Witness for C5 on a concrete forward-only endpoint with queued traffic. -/
theorem forward_only_skips_egress_witness :
    let h : DiscordHandlerS := ⟨[1, 2], [], false, true⟩
    let m : Message := Message.new "Twitch" "general" "alice" "hi"
    h.forward_only = true ∧
      (discordReady h [m] = [] ∧ twitchRunEgress true ["lobby"] [m] = []) :=
  ⟨rfl, forward_only_skips_egress ⟨[1, 2], [], false, true⟩
    [Message.new "Twitch" "general" "alice" "hi"] rfl ["lobby"]
    [Message.new "Twitch" "general" "alice" "hi"]⟩

/-- Claim C6: with `isolate_channels` set, a passing ingress event produces no
same-platform cross-channel rebroadcast, but the constructed `Message` is still
forwarded to every registered outbound target, in order. -/
theorem isolate_channels_still_forwards (h : DiscordHandlerS) (e : DiscordEvent)
    (hiso : h.isolate_channels = true) (hbot : e.author_bot = false)
    (hch : e.channel_id ∈ h.ch_ids)
    (cn : String) (chs : List String) (otx : List Sender) (te : TwitchEvent)
    (hown : te.sender_login ≠ cn) (htch : te.channel_login ∈ chs) :
    discordMessage h e =
      h.outer_tx.map (fun stream => DAction.forward stream
        (Message.new "Discord" e.channel_name e.author_name e.content)) ∧
    twitchExternalOne cn chs otx true te =
      otx.map (fun stream => TAction.forward stream
        (Message.new "Twitch" te.channel_login te.sender_name te.message_text)) := by
  constructor
  · simp [discordMessage, hbot, hiso, Option.isNone_iff_eq_none]
    intro hnone
    exact absurd rfl (hnone e.channel_id hch)
  · simp [twitchExternalOne, hown, Option.isNone_iff_eq_none]
    intro hnone
    exact absurd rfl (hnone te.channel_login htch)

/-- Witness for C6: isolated two-channel endpoints still forward to their peer. -/
theorem isolate_channels_still_forwards_witness :
    let h : DiscordHandlerS := ⟨[1, 2], [⟨"b"⟩], true, false⟩
    let e : DiscordEvent := ⟨false, "alice", 1, "general", "hi"⟩
    let te : TwitchEvent := ⟨"alice", "Alice", "c1", "hey"⟩
    h.isolate_channels = true ∧ e.author_bot = false ∧ e.channel_id ∈ h.ch_ids ∧
      te.sender_login ≠ "mybot" ∧ te.channel_login ∈ ["c1", "c2"] ∧
      (discordMessage h e =
        [DAction.forward ⟨"b"⟩ (Message.new "Discord" "general" "alice" "hi")] ∧
      twitchExternalOne "mybot" ["c1", "c2"] [⟨"d"⟩] true te =
        [TAction.forward ⟨"d"⟩ (Message.new "Twitch" "c1" "Alice" "hey")]) :=
  ⟨rfl, rfl, by decide, by decide, by decide,
    isolate_channels_still_forwards ⟨[1, 2], [⟨"b"⟩], true, false⟩
      ⟨false, "alice", 1, "general", "hi"⟩ rfl rfl (by decide)
      "mybot" ["c1", "c2"] [⟨"d"⟩] ⟨"alice", "Alice", "c1", "hey"⟩
      (by decide) (by decide)⟩

/-- Claim C8: an ingress event from a channel outside the endpoint's configured
channel list produces no `Message` and no action of any kind, on both
platforms. -/
theorem unconfigured_channel_dropped (h : DiscordHandlerS) (e : DiscordEvent)
    (hch : e.channel_id ∉ h.ch_ids) (cn : String) (chs : List String)
    (otx : List Sender) (iso : Bool) (te : TwitchEvent)
    (htch : te.channel_login ∉ chs) :
    discordMessage h e = [] ∧ twitchExternalOne cn chs otx iso te = [] := by
  have hfind : (h.ch_ids.find? fun ch => ch = e.channel_id) = none :=
    List.find?_eq_none.mpr (by intro x hx; simp; intro hxe; exact hch (hxe ▸ hx))
  have htfind : (chs.find? fun ch => ch = te.channel_login) = none :=
    List.find?_eq_none.mpr (by intro x hx; simp; intro hxe; exact htch (hxe ▸ hx))
  constructor
  · cases hbot : e.author_bot <;> simp [discordMessage, hbot, hfind]
  · by_cases hown : te.sender_login = cn
    · simp [twitchExternalOne, hown]
    · simp [twitchExternalOne, hown, htfind]

/-- Witness for C8 at concrete events from unconfigured channels. -/
theorem unconfigured_channel_dropped_witness :
    let h : DiscordHandlerS := ⟨[1, 2], [⟨"b"⟩], false, false⟩
    let e : DiscordEvent := ⟨false, "alice", 7, "random", "hi"⟩
    let te : TwitchEvent := ⟨"alice", "Alice", "random", "hey"⟩
    e.channel_id ∉ h.ch_ids ∧ te.channel_login ∉ ["c1", "c2"] ∧
      (discordMessage h e = [] ∧
        twitchExternalOne "mybot" ["c1", "c2"] [⟨"d"⟩] false te = []) :=
  ⟨by decide, by decide,
    unconfigured_channel_dropped ⟨[1, 2], [⟨"b"⟩], false, false⟩
      ⟨false, "alice", 7, "random", "hi"⟩ (by decide) "mybot" ["c1", "c2"]
      [⟨"d"⟩] false ⟨"alice", "Alice", "random", "hey"⟩ (by decide)⟩

/-- Claim C10 (implicit): the Discord ingress guard is `msg.author.bot`, so an
event authored by *any* bot account — also a third-party bot unrelated to this
endpoint, in a configured channel — is dropped: no `Message`, no rebroadcast,
no forwarding. -/
theorem any_bot_dropped (h : DiscordHandlerS) (e : DiscordEvent)
    (hbot : e.author_bot = true) (_hch : e.channel_id ∈ h.ch_ids) :
    discordMessage h e = [] := by
  simp [discordMessage, hbot]

/-- Counterexample for C4: the crate's error enum (`errors.rs`) has only the
kinds `InternalErr` and `GenericErr` — there is no `NotInitialized` kind — and
`Discord::get_stream` on a handler-less client concretely fails with
`GenericErr("No handler")` (display string "Generic error: No handler"), not
with any NotInitialized kind. -/
theorem get_stream_error_kind_counterexample :
    DiscordClient.get_stream ⟨"a", "tok", none⟩ =
      Except.error (FitterErrorKind.GenericErr "No handler") ∧
    (FitterErrorKind.GenericErr "No handler").display = "Generic error: No handler" ∧
    (FitterErrorKind.GenericErr "No handler") ≠
      (FitterErrorKind.InternalErr "No handler") :=
  ⟨rfl, rfl, by decide⟩

/-- Claim C4 as amended: `get_stream` fails only when the adapter no longer
holds its queue, and then with the `GenericErr` kind (message "No handler") on
Discord; `Twitch::get_stream` never fails (its queue is allocated in
`from_config`); and in correct wiring order the failure never occurs, since
both constructors allocate the queue and `get_stream` on a freshly constructed
client succeeds. -/
theorem get_stream_error_behaviour (d : DiscordClient) (hd : d.handler = none)
    (i : String) (dc : DiscordConfigE) (tc : TwitchConfigE) (t : TwitchClient) :
    d.get_stream = .error (.GenericErr "No handler") ∧
    (discordFromConfig i dc).get_stream = .ok ⟨i⟩ ∧
    (twitchFromConfig i tc).get_stream = .ok ⟨i⟩ ∧
    t.get_stream = .ok ⟨t.id⟩ := by
  refine ⟨?_, rfl, rfl, rfl⟩
  simp [DiscordClient.get_stream, hd]

/-- Witness for the amended C4 at a concrete handler-less client and concrete
configs. -/
theorem get_stream_error_behaviour_witness :
    let d : DiscordClient := ⟨"a", "tok", none⟩
    let dc : DiscordConfigE := ⟨"tok", [1], none, none⟩
    let tc : TwitchConfigE := ⟨"tok", "mybot", ["c1"], none, none⟩
    let t : TwitchClient := ⟨"b", ["c1"], [], false, false⟩
    d.handler = none ∧
      (d.get_stream = .error (.GenericErr "No handler") ∧
        (discordFromConfig "x" dc).get_stream = .ok ⟨"x"⟩ ∧
        (twitchFromConfig "x" tc).get_stream = .ok ⟨"x"⟩ ∧
        t.get_stream = .ok ⟨t.id⟩) :=
  ⟨rfl, get_stream_error_behaviour ⟨"a", "tok", none⟩ rfl "x"
    ⟨"tok", [1], none, none⟩ ⟨"tok", "mybot", ["c1"], none, none⟩
    ⟨"b", ["c1"], [], false, false⟩⟩

/-- Witness for C10: a third-party bot posting in a configured channel. -/
theorem any_bot_dropped_witness :
    let h : DiscordHandlerS := ⟨[1, 2], [⟨"b"⟩], false, false⟩
    let e : DiscordEvent := ⟨true, "SomeOtherBot", 1, "general", "spam"⟩
    e.author_bot = true ∧ e.channel_id ∈ h.ch_ids ∧ discordMessage h e = [] :=
  ⟨rfl, by decide,
    any_bot_dropped ⟨[1, 2], [⟨"b"⟩], false, false⟩
      ⟨true, "SomeOtherBot", 1, "general", "spam"⟩ rfl (by decide)⟩

end StreamFitter
